import Mathlib

/-!
Verification of the FailSafe handoff-validation and audit pipeline.

The dashboard frontend (React/JS under the repository's
`dashboard/frontend/src` trees) is embedded shallowly: each JS helper
becomes a Lean function over explicit data types.  Dynamically-typed JS
values that matter to the properties (the `passed` flag, JSON payloads)
are modelled as small inductive types; JS strict equality (`===`) becomes
equality on those types, and JS truthiness becomes an explicit `truthy`
function.  The deterministic validation core (registry, three-stage
engine, interceptor, verdict computation) is not part of the source tree;
those definitions are modelled from the specification and marked
`Modelled from the spec:` in their doc comments.
-/

namespace FailSafe

/-! ## JS value modelling -/

/-- A dynamically-typed JS value as it appears in the `passed` field of a
validation record: the backend may encode the flag as a boolean or as a
SQLite integer.  JS strict equality (`===`) is equality of this type. -/
inductive JSVal where
  | bool (b : Bool)
  | num (n : Int)
deriving DecidableEq

/-- JS truthiness for a `JSVal`: `false` and `0` are falsy. -/
def JSVal.truthy : JSVal → Bool
  | .bool b => b
  | .num n => n != 0

/-- JS `a.includes(b)` on strings: `b` occurs as a contiguous substring of
`a`. -/
def jsIncludes (a b : String) : Bool := decide (b.data <:+: a.data)

/-- JS `s.toLowerCase()`: character-wise lowering. -/
def jsToLower (s : String) : String := String.mk (s.data.map Char.toLower)

/-! ## Sensitive-key detection (ValidationStream.jsx, DataFlow.jsx,
HandoffDetail.jsx)

Each of the three components declares its own copy of the pattern list
and predicate; the copies are embedded separately so their agreement can
be stated. -/

namespace ValidationStream

/-- `SENSITIVE_PATTERNS` of ValidationStream.jsx. -/
def SENSITIVE_PATTERNS : List String :=
  ["ssn", "password", "passwd", "secret", "token", "api_key", "apikey",
   "credit_card", "card_number", "account_number", "tax_id", "private_key"]

/-- `isSensitiveKey` of ValidationStream.jsx:
`SENSITIVE_PATTERNS.some((p) => key.toLowerCase().includes(p))`. -/
def isSensitiveKey (key : String) : Bool :=
  SENSITIVE_PATTERNS.any (fun p => jsIncludes (jsToLower key) p)

end ValidationStream

namespace DataFlow

/-- `SENSITIVE_PATTERNS` of DataFlow.jsx. -/
def SENSITIVE_PATTERNS : List String :=
  ["ssn", "password", "passwd", "secret", "token", "api_key", "apikey",
   "credit_card", "card_number", "account_number", "tax_id", "private_key"]

/-- `isSensitiveKey` of DataFlow.jsx. -/
def isSensitiveKey (key : String) : Bool :=
  SENSITIVE_PATTERNS.any (fun p => jsIncludes (jsToLower key) p)

end DataFlow

namespace HandoffDetail

/-- `SENSITIVE_PATTERNS` of HandoffDetail.jsx. -/
def SENSITIVE_PATTERNS : List String :=
  ["ssn", "password", "passwd", "secret", "token", "api_key", "apikey",
   "credit_card", "card_number", "account_number", "tax_id", "private_key"]

/-- `isSensitiveKey` of HandoffDetail.jsx. -/
def isSensitiveKey (key : String) : Bool :=
  SENSITIVE_PATTERNS.any (fun p => jsIncludes (jsToLower key) p)

end HandoffDetail

/-! ## JSON values and the dashboard JSON renderer -/

/-- A structured JSON payload value.  JS numbers are modelled as integers
(the properties verified here do not depend on float behaviour). -/
inductive JsonValue where
  | null
  | bool (b : Bool)
  | num (n : Int)
  | str (s : String)
  | arr (items : List JsonValue)
  | obj (fields : List (String × JsonValue))

/-- Output of the JSX `formatJson` renderer: a tree of spans (with a CSS
class) and plain text pieces. -/
inductive JsonRender where
  | span (cls : String) (text : String)
  | text (s : String)
  | seq (parts : List JsonRender)

/-- JS `'  '.repeat(n)`-style repetition. -/
def jsRepeat (s : String) (n : Nat) : String := String.join (List.replicate n s)

/-- JSON-quote a string the way the renderer displays it: `"{value}"`. -/
def jsQuote (s : String) : String := "\"" ++ s ++ "\""

mutual

/-- `formatJson` shared by ValidationStream.jsx and HandoffDetail.jsx
(identical bodies): recursively formats a JSON value into spans with
syntax classes.  A string value is given the class `json-masked` exactly
when it is the fixed mask token `***MASKED***`, else `json-string`. -/
def formatJson : JsonValue → Nat → JsonRender
  | .null, _ => .span "json-null" "null"
  | .bool b, _ => .span "json-boolean" (if b then "true" else "false")
  | .num n, _ => .span "json-number" (toString n)
  | .str s, _ =>
      if s = "***MASKED***" then .span "json-masked" (jsQuote s)
      else .span "json-string" (jsQuote s)
  | .arr items, indent =>
      if items.isEmpty then .text "[]"
      else .seq ([.text "[\n"] ++ formatArrItems items indent ++
                 [.text (jsRepeat "  " indent ++ "]")])
  | .obj fields, indent =>
      if fields.isEmpty then .text "\x7b\x7d"
      else .seq ([.text "\x7b\n"] ++ formatObjFields fields indent ++
                 [.text (jsRepeat "  " indent ++ "\x7d")])

/-- Array items of `formatJson`: each on its own padded line, a comma
after every item but the last. -/
def formatArrItems : List JsonValue → Nat → List JsonRender
  | [], _ => []
  | [x], indent =>
      [.seq [.text (jsRepeat "  " (indent + 1)), formatJson x (indent + 1), .text "\n"]]
  | x :: y :: rest, indent =>
      .seq [.text (jsRepeat "  " (indent + 1)), formatJson x (indent + 1), .text ",\n"]
        :: formatArrItems (y :: rest) indent

/-- Object fields of `formatJson`: key span, colon, recursively rendered
value, a comma after every field but the last. -/
def formatObjFields : List (String × JsonValue) → Nat → List JsonRender
  | [], _ => []
  | [(k, v)], indent =>
      [.seq [.text (jsRepeat "  " (indent + 1)), .span "json-key" (jsQuote k),
             .text ": ", formatJson v (indent + 1), .text "\n"]]
  | (k, v) :: f :: rest, indent =>
      .seq [.text (jsRepeat "  " (indent + 1)), .span "json-key" (jsQuote k),
            .text ": ", formatJson v (indent + 1), .text ",\n"]
        :: formatObjFields (f :: rest) indent

end

/-! ## Stream events (WebSocket/SSE messages consumed by the dashboard) -/

/-- A violation as carried by a dashboard stream event: severity is the
lowercase string emitted by the backend. -/
structure StreamViolation where
  severity : String
  message : String
  field : Option String
deriving DecidableEq

/-- One dashboard stream event.  The JS code reads `evt.data || evt`;
both spellings give the same record, modelled by these fields directly.
`traceId`/`timestamp` use `""` for an absent value (JS falsy). -/
structure StreamEvent where
  etype : String
  timestamp : String
  source : String
  target : String
  passed : JSVal
  violations : List StreamViolation
  traceId : String
  payloadKeys : List String
  payloadPreview : String
deriving DecidableEq

/-- JS `events.slice(-n)`: the at-most-`n` most recent elements. -/
def sliceLast (n : Nat) (l : List α) : List α := l.drop (l.length - n)

/-! ## Bounded event buffer (useWebSocket.js) -/

/-- The `onmessage` handler of useWebSocket.js: append the message, then
`next.length > 500 ? next.slice(-500) : next`. -/
def pushEvent (buf : List α) (msg : α) : List α :=
  let next := buf ++ [msg]
  if next.length > 500 then next.drop (next.length - 500) else next

/-- The buffer contents after receiving `msgs` in order, starting from
the initial empty `events` state. -/
def receiveAll (msgs : List α) : List α := msgs.foldl pushEvent []

/-! ## Agent health derivation (AgentGraph.jsx `deriveAgentStatuses`,
duplicated in Overview) -/

/-- Dashboard agent health as computed by `deriveAgentStatuses` (an agent
absent from the map is healthy). -/
inductive AgentStatus where
  | error
  | warning
deriving DecidableEq

/-- Severity class of one failed event:
`(d.violations || []).some(v => v.severity === 'critical' || v.severity === 'high') ? 'error' : 'warning'`. -/
def eventSeverity (e : StreamEvent) : AgentStatus :=
  if e.violations.any (fun v => v.severity == "critical" || v.severity == "high")
  then .error else .warning

/-- One assignment of the inner loop of `deriveAgentStatuses`:
`if (severity === 'error' || statuses[name] !== 'error') statuses[name] = severity`. -/
def setStatus (st : String → Option AgentStatus) (sev : AgentStatus) (n : String) :
    String → Option AgentStatus :=
  if sev = .error ∨ st n ≠ some .error then Function.update st n (some sev) else st

/-- One iteration of the event loop of `deriveAgentStatuses`: skip
non-validation and passed events, otherwise write the event's severity
for the source then the target. -/
def statusStep (st : String → Option AgentStatus) (e : StreamEvent) :
    String → Option AgentStatus :=
  if e.etype = "validation" ∧ e.passed.truthy = false then
    setStatus (setStatus st (eventSeverity e) e.source) (eventSeverity e) e.target
  else st

/-- `deriveAgentStatuses(events)` of AgentGraph.jsx: fold the status
update over the 100 most recent events (`events.slice(-100)`), starting
from the empty map. -/
def deriveAgentStatuses (events : List StreamEvent) : String → Option AgentStatus :=
  (sliceLast 100 events).foldl statusStep (fun _ => none)

/-! ## DataFlow.jsx filtering and trace grouping -/

/-- The per-event predicate of DataFlow's `filtered` memo, for given
filter settings (`sourceFilter`, `targetFilter`, `onlyViolations`,
`search`).  Mirrors lines 45-58 of DataFlow.jsx, including the strict
`d.passed !== false` comparison. -/
def dataFlowKeep (sourceFilter targetFilter : String) (onlyViolations : Bool)
    (search : String) (e : StreamEvent) : Bool :=
  if sourceFilter ≠ "All" ∧ e.source ≠ sourceFilter then false
  else if targetFilter ≠ "All" ∧ e.target ≠ targetFilter then false
  else if onlyViolations ∧ (e.passed ≠ JSVal.bool false ∨ e.violations.length = 0) then false
  else if jsToLower search ≠ "" then
    e.payloadKeys.any (fun k => jsIncludes (jsToLower k) (jsToLower search))
      || jsIncludes (jsToLower e.payloadPreview) (jsToLower search)
  else true

/-- DataFlow's displayed event list: `validationEvents` filtered by the
current filter settings. -/
def dataFlowFiltered (sourceFilter targetFilter : String) (onlyViolations : Bool)
    (search : String) (events : List StreamEvent) : List StreamEvent :=
  (events.filter (fun e => e.etype == "validation")).filter
    (dataFlowKeep sourceFilter targetFilter onlyViolations search)

/-- Trace id of an event as grouped by DataFlow:
`d.trace_id || 'unknown'`. -/
def tidOf (e : StreamEvent) : String := if e.traceId = "" then "unknown" else e.traceId

/-- Append a key if not yet present; folding this gives JS object key
insertion order. -/
def insertIfNew (acc : List String) (x : String) : List String :=
  if x ∈ acc then acc else acc ++ [x]

/-- The keys of DataFlow's `groups` object, in insertion (= first
occurrence) order. -/
def groupKeys (evts : List StreamEvent) : List String :=
  (evts.map tidOf).foldl insertIfNew []

/-- The events of one trace group, in list order. -/
def groupOf (evts : List StreamEvent) (tid : String) : List StreamEvent :=
  evts.filter (fun e => tidOf e == tid)

/-- Timestamp of the first event of a trace group
(`g[a][0]?.data?.timestamp || g[a][0]?.timestamp || ''`). -/
def firstTs (evts : List StreamEvent) (tid : String) : String :=
  match groupOf evts tid with
  | [] => ""
  | e :: _ => e.timestamp

/-- DataFlow's `groupOrder`: group keys sorted by the comparator
`(a, b) => tsB > tsA ? 1 : tsB < tsA ? -1 : 0`, i.e. stably by
descending first-event timestamp. -/
def groupOrder (evts : List StreamEvent) : List String :=
  (groupKeys evts).mergeSort (fun a b => decide (firstTs evts b ≤ firstTs evts a))

/-- The trace-group display order of DataFlow for given filter
settings. -/
def dataFlowGroupOrder (sourceFilter targetFilter : String) (onlyViolations : Bool)
    (search : String) (events : List StreamEvent) : List String :=
  groupOrder (dataFlowFiltered sourceFilter targetFilter onlyViolations search events)

/-! ## InteractionLog.jsx pass-flag decoding -/

/-- The row-level pass decoding of InteractionLog.jsx:
`const passed = v.passed === 1 || v.passed === true`. -/
def interactionLogRowPassed (p : JSVal) : Bool :=
  p == JSVal.num 1 || p == JSVal.bool true

/-! ## The validation core

The deterministic core (registry, schema/authority validators, policy
dispatcher, validation engine, interceptor) is the Python package whose
dashboard is the frontend above; its own sources are not part of this
tree, so the definitions below are modelled from the specification. -/

namespace Core

/-- Modelled from the spec: violation severities (core `models.py`,
absent from this tree), an explicit closed enumeration. -/
inductive Severity where
  | CRITICAL
  | HIGH
  | MEDIUM
  | LOW
deriving DecidableEq

/-- `true` exactly on CRITICAL and HIGH. -/
def Severity.isCritOrHigh : Severity → Bool
  | .CRITICAL => true
  | .HIGH => true
  | _ => false

/-- Modelled from the spec: the three possible verdicts of a
ValidationResult. -/
inductive Verdict where
  | PASS
  | FAIL
  | WARN
deriving DecidableEq

/-- Modelled from the spec: a contract's enforcement mode. -/
inductive Mode where
  | warn
  | block
deriving DecidableEq

/-- Modelled from the spec: the ordered authority hierarchy
READ_ONLY < READ_WRITE < EXECUTE < ADMIN. -/
inductive AuthorityLevel where
  | READ_ONLY
  | READ_WRITE
  | EXECUTE
  | ADMIN
deriving DecidableEq

/-- Ordinal rank of an authority level, for the ordinal comparison the
spec requires. -/
def AuthorityLevel.rank : AuthorityLevel → Nat
  | .READ_ONLY => 0
  | .READ_WRITE => 1
  | .EXECUTE => 2
  | .ADMIN => 3

/-- Modelled from the spec: a Violation record (rule id, severity,
message, optional field name). -/
structure Violation where
  ruleId : String
  severity : Severity
  message : String
  field : Option String
deriving DecidableEq

/-- Modelled from the spec: declared field types of a FieldContract. -/
inductive FieldType where
  | string
  | number
  | boolean
  | object
  | array
deriving DecidableEq

/-- Modelled from the spec: a FieldContract describing one payload
field.  The regex pattern is abstracted as a Boolean predicate on the
stringified value; the enum is an allowed-value list compared against
the stringified value. -/
structure FieldContract where
  name : String
  ftype : FieldType
  pattern : Option (String → Bool)
  enum : Option (List String)
  range : Option (Int × Int)
  maxLength : Option Nat
  required : Bool
  financialData : Bool

/-- A structured payload or metadata map: ordered key/value pairs. -/
abbrev Payload := List (String × JsonValue)

/-- Field lookup in a payload. -/
def lookupField (payload : Payload) (n : String) : Option JsonValue :=
  (payload.find? (fun kv => kv.1 == n)).map (fun kv => kv.2)

/-- Whether a payload value matches a declared field type. -/
def typeMatches : FieldType → JsonValue → Bool
  | .string, .str _ => true
  | .number, .num _ => true
  | .boolean, .bool _ => true
  | .object, .obj _ => true
  | .array, .arr _ => true
  | _, _ => false

mutual

/-- Stringification of a payload value, used for pattern, enum and
length checks. -/
def stringifyJson : JsonValue → String
  | .null => "null"
  | .bool b => if b then "true" else "false"
  | .num n => toString n
  | .str s => s
  | .arr items => "[" ++ stringifyItems items ++ "]"
  | .obj fields => "\x7b" ++ stringifyFields fields ++ "\x7d"

/-- Comma-separated stringification of array items. -/
def stringifyItems : List JsonValue → String
  | [] => ""
  | [x] => stringifyJson x
  | x :: y :: rest => stringifyJson x ++ "," ++ stringifyItems (y :: rest)

/-- Comma-separated stringification of object fields. -/
def stringifyFields : List (String × JsonValue) → String
  | [] => ""
  | [(k, v)] => k ++ ":" ++ stringifyJson v
  | (k, v) :: f :: rest => k ++ ":" ++ stringifyJson v ++ "," ++ stringifyFields (f :: rest)

end

/-- Modelled from the spec: the Schema Validator's checks for one
FieldContract (core `engine.py`, absent from this tree).  If `required`
and absent, a CRITICAL `missing_required_field`; if present: type match
(HIGH `type_mismatch`), pattern (HIGH `pattern_mismatch`), enum
membership (HIGH `invalid_enum_value`), numeric range (HIGH
`out_of_range`), max length (MEDIUM `exceeds_max_length`).  All checks
run independently, with no short-circuiting. -/
def checkFieldContract (payload : Payload) (fc : FieldContract) : List Violation :=
  match lookupField payload fc.name with
  | none =>
      if fc.required then
        [⟨"missing_required_field", .CRITICAL, "required field missing", some fc.name⟩]
      else []
  | some v =>
      (if typeMatches fc.ftype v then []
       else [⟨"type_mismatch", .HIGH, "declared type does not match", some fc.name⟩])
      ++ (match fc.pattern with
          | none => []
          | some p =>
              if p (stringifyJson v) then []
              else [⟨"pattern_mismatch", .HIGH, "value does not match pattern", some fc.name⟩])
      ++ (match fc.enum with
          | none => []
          | some allowed =>
              if stringifyJson v ∈ allowed then []
              else [⟨"invalid_enum_value", .HIGH, "value not in allowed enum", some fc.name⟩])
      ++ (match fc.range, v with
          | some (lo, hi), .num n =>
              if lo ≤ n ∧ n ≤ hi then []
              else [⟨"out_of_range", .HIGH, "numeric value out of range", some fc.name⟩]
          | _, _ => [])
      ++ (match fc.maxLength with
          | none => []
          | some m =>
              if (stringifyJson v).length ≤ m then []
              else [⟨"exceeds_max_length", .MEDIUM, "value exceeds max length", some fc.name⟩])

/-- Modelled from the spec: the Schema Validator stage over an ordered
list of FieldContracts, accumulating every field's violations. -/
def schemaViolations (fields : List FieldContract) (payload : Payload) : List Violation :=
  (fields.map (checkFieldContract payload)).flatten

/-- Modelled from the spec: an immutable AgentIdentity (name, authority
level, data-domain tags, compliance scopes, data-classification
clearance, optional per-field numeric limits). -/
structure AgentIdentity where
  name : String
  authority : AuthorityLevel
  dataDomains : List String
  complianceScopes : List String
  clearance : Nat
  limits : List (String × Int)

/-- Modelled from the spec: a HandoffContract. -/
structure HandoffContract where
  name : String
  source : String
  target : String
  mode : Mode
  fields : List FieldContract
  nlRules : List String
  requiredAuthority : AuthorityLevel
  allowedActions : List String
  prohibitedActions : List String
  requiredScopes : List String
  dataClassification : Option Nat

/-- The requested action, if present in payload or metadata. -/
def requestedAction (payload metadata : Payload) : Option String :=
  match lookupField payload "action" with
  | some (.str a) => some a
  | _ =>
      match lookupField metadata "action" with
      | some (.str a) => some a
      | _ => none

/-- Modelled from the spec: the Authority Validator stage (core
`engine.py`, absent from this tree).  Five independently evaluated
checks: (a) target authority at least the contract's required level —
CRITICAL `insufficient_authority`; (b) source and target clearance
dominate a declared data classification — CRITICAL `clearance_violation`;
(c) a requested action must be allowed and not prohibited — CRITICAL
`prohibited_action`; (d) required compliance scopes are a subset of the
intersection of source and target scopes — HIGH `compliance_scope_gap`;
(e) per-field numeric limits of either identity are enforced on matching
numeric payload fields — CRITICAL `amount_exceeds_limit`. -/
def authorityViolations (src tgt : AgentIdentity) (c : HandoffContract)
    (payload metadata : Payload) : List Violation :=
  (if c.requiredAuthority.rank ≤ tgt.authority.rank then []
   else [⟨"insufficient_authority", .CRITICAL, "target authority below required level", none⟩])
  ++ (match c.dataClassification with
      | none => []
      | some lvl =>
          if lvl ≤ src.clearance ∧ lvl ≤ tgt.clearance then []
          else [⟨"clearance_violation", .CRITICAL, "clearance below data classification", none⟩])
  ++ (match requestedAction payload metadata with
      | none => []
      | some act =>
          if act ∈ c.allowedActions ∧ act ∉ c.prohibitedActions then []
          else [⟨"prohibited_action", .CRITICAL, "action not permitted by contract", none⟩])
  ++ (if c.requiredScopes.all
        (fun s => s ∈ src.complianceScopes ∧ s ∈ tgt.complianceScopes) then []
      else [⟨"compliance_scope_gap", .HIGH, "required compliance scopes not shared", none⟩])
  ++ ((src.limits ++ tgt.limits).filterMap (fun lim =>
        match lookupField payload lim.1 with
        | some (.num n) =>
            if lim.2 < n then
              some ⟨"amount_exceeds_limit", .CRITICAL, "numeric field exceeds identity limit",
                    some lim.1⟩
            else none
        | _ => none))

/-- Modelled from the spec: a policy pack — a pure evaluation capability
plus the compliance scopes it declares to handle. -/
structure PolicyPack where
  name : String
  scopes : List String
  evaluate : HandoffContract → Payload → AgentIdentity → AgentIdentity → List Violation

/-- Modelled from the spec: the Policy Dispatcher stage — every
registered pack whose declared scopes intersect the contract's required
scopes runs, and their violations are concatenated. -/
def dispatchPolicies (packs : List PolicyPack) (c : HandoffContract)
    (payload : Payload) (src tgt : AgentIdentity) : List Violation :=
  ((packs.filter (fun p => p.scopes.any (fun s => s ∈ c.requiredScopes))).map
    (fun p => p.evaluate c payload src tgt)).flatten

/-- Modelled from the spec: the fixed severity-to-verdict mapping of the
terminal RESOLVED state — FAIL if any CRITICAL or HIGH violation exists,
WARN if only MEDIUM/LOW violations exist, PASS otherwise.  It takes no
configuration. -/
def computeVerdict (vs : List Violation) : Verdict :=
  if vs.any (fun v => v.severity.isCritOrHigh) then .FAIL
  else if vs.isEmpty then .PASS
  else .WARN

/-- Modelled from the spec: a ValidationResult — verdict, ordered
violation list, blocked flag. -/
structure ValidationResult where
  verdict : Verdict
  violations : List Violation
  blocked : Bool

/-- Modelled from the spec: the Validation Engine — runs
Schema → Authority → Policy in sequence, accumulating all three stages'
violations into one result, then computes the verdict. -/
def runValidation (packs : List PolicyPack) (src tgt : AgentIdentity)
    (c : HandoffContract) (payload metadata : Payload) : ValidationResult :=
  let sv := schemaViolations c.fields payload
  let av := authorityViolations src tgt c payload metadata
  let pv := dispatchPolicies packs c payload src tgt
  { verdict := computeVerdict (sv ++ av ++ pv),
    violations := sv ++ av ++ pv,
    blocked := false }

/-- Modelled from the spec: the ContractRegistry's data — registered
agents and contracts in registration order. -/
structure Registry where
  agents : List AgentIdentity
  contracts : List HandoffContract

/-- Modelled from the spec: `get_contract(source, target)` — the most
recently registered contract for the pair wins (last-write-wins). -/
def get_contract (reg : Registry) (source target : String) : Option HandoffContract :=
  (reg.contracts.filter (fun c => c.source == source && c.target == target)).getLast?

/-- Modelled from the spec: the three coverage statuses of the coverage
matrix. -/
inductive CoverageStatus where
  | covered
  | uncovered
  | self
deriving DecidableEq

/-- Modelled from the spec: the coverage entry for one ordered agent
pair — `self` when source = target, else `covered` exactly when
`get_contract` finds a contract. -/
def coverageStatus (reg : Registry) (a b : String) : CoverageStatus :=
  if a = b then .self
  else if (get_contract reg a b).isSome then .covered
  else .uncovered

/-- Modelled from the spec: `coverage()` — one entry for every ordered
pair of registered agents. -/
def coverage (reg : Registry) : List (String × String × CoverageStatus) :=
  reg.agents.flatMap (fun a =>
    reg.agents.map (fun b => (a.name, b.name, coverageStatus reg a.name b.name)))

/-- Outcome of one interceptor `validate` call: either the payload is
forwarded together with the result, or the distinct blocking error
`HandoffBlockedError` is raised carrying the result. -/
inductive InterceptOutcome where
  | forwarded (payload : Payload) (result : ValidationResult)
  | HandoffBlockedError (result : ValidationResult)

/-- Modelled from the spec: the Interceptor's `validate(source, target,
payload, metadata)` (interceptor `middleware.py`, absent from this
tree).  Resolves the contract from the registry; with a contract, runs
the engine and applies the fail-closed policy: mode `block` and verdict
FAIL raise `HandoffBlockedError`, otherwise the payload is forwarded
with the result.  With no contract, a CRITICAL `CONTRACT_VIOLATION` is
synthesized, authority checks still run against identity-only defaults,
and the handoff is blocked fail-closed. -/
def interceptorValidate (reg : Registry) (packs : List PolicyPack)
    (src tgt : AgentIdentity) (payload metadata : Payload) : InterceptOutcome :=
  match get_contract reg src.name tgt.name with
  | some c =>
      let r := runValidation packs src tgt c payload metadata
      if c.mode = .block ∧ r.verdict = .FAIL then
        .HandoffBlockedError { r with blocked := true }
      else .forwarded payload r
  | none =>
      let defaults : HandoffContract :=
        { name := "", source := src.name, target := tgt.name, mode := .block,
          fields := [], nlRules := [], requiredAuthority := .READ_ONLY,
          allowedActions := [], prohibitedActions := [], requiredScopes := [],
          dataClassification := none }
      let vs := ⟨"CONTRACT_VIOLATION", .CRITICAL, "handoff has no governing contract", none⟩
          :: authorityViolations src tgt defaults payload metadata
      .HandoffBlockedError { verdict := computeVerdict vs, violations := vs, blocked := true }

end Core

/-! ## Predicates used to characterise the agent-health derivation -/

/-- An event that `deriveAgentStatuses` treats as a failed validation
involving agent `a`: a validation event whose `passed` flag is falsy and
whose source or target is `a`. -/
def relevantFail (a : String) (e : StreamEvent) : Prop :=
  e.etype = "validation" ∧ e.passed.truthy = false ∧ (e.source = a ∨ e.target = a)

/-- A `relevantFail` event whose computed severity class is `error`,
i.e. it carries some `critical` or `high` violation. -/
def relevantError (a : String) (e : StreamEvent) : Prop :=
  relevantFail a e ∧ eventSeverity e = .error

instance (a : String) (e : StreamEvent) : Decidable (relevantFail a e) := by
  unfold relevantFail; infer_instance

instance (a : String) (e : StreamEvent) : Decidable (relevantError a e) := by
  unfold relevantError; infer_instance

/-! ## Sample inputs used by witness theorems -/

/-- A failed validation record whose `passed` flag is the number `0`. -/
def numericZeroFailEvent : StreamEvent :=
  { etype := "validation", timestamp := "2026-01-01T00:00:00", source := "cs",
    target := "research", passed := .num 0,
    violations := [⟨"high", "pattern mismatch", some "customer_id"⟩],
    traceId := "t1", payloadKeys := ["customer_id"], payloadPreview := "" }

/-- A passed validation event with the earlier timestamp. -/
def evEarly : StreamEvent :=
  { etype := "validation", timestamp := "2026-01-01T00:00:01", source := "a",
    target := "b", passed := .bool true, violations := [],
    traceId := "t-early", payloadKeys := [], payloadPreview := "" }

/-- A passed validation event with the later timestamp. -/
def evLate : StreamEvent :=
  { etype := "validation", timestamp := "2026-01-01T00:00:02", source := "a",
    target := "b", passed := .bool true, violations := [],
    traceId := "t-late", payloadKeys := [], payloadPreview := "" }

/-- A two-trace stream, earlier trace received first. -/
def sampleStream : List StreamEvent := [evEarly, evLate]

/-- A failed validation event carrying a critical violation. -/
def evCrit : StreamEvent :=
  { etype := "validation", timestamp := "2026-01-01T00:00:03", source := "alice",
    target := "bob", passed := .bool false,
    violations := [⟨"critical", "ssn detected in payload", none⟩],
    traceId := "t-crit", payloadKeys := [], payloadPreview := "" }

/-- A customer-service agent identity. -/
def csAgent : Core.AgentIdentity :=
  { name := "cs", authority := .READ_ONLY, dataDomains := [],
    complianceScopes := ["SOX"], clearance := 0, limits := [] }

/-- A research agent identity. -/
def researchAgent : Core.AgentIdentity :=
  { name := "research", authority := .READ_WRITE,
    dataDomains := ["financial_records"], complianceScopes := ["SOX"],
    clearance := 0, limits := [] }

/-- A required string field `customer_id`. -/
def custIdField : Core.FieldContract :=
  { name := "customer_id", ftype := .string, pattern := none, enum := none,
    range := none, maxLength := none, required := true, financialData := false }

/-- A required numeric field `amount`. -/
def amountField : Core.FieldContract :=
  { name := "amount", ftype := .number, pattern := none, enum := none,
    range := none, maxLength := none, required := true, financialData := true }

/-- A blocking contract from `cs` to `research` requiring
`customer_id`. -/
def ctr1 : Core.HandoffContract :=
  { name := "CTR-1", source := "cs", target := "research", mode := .block,
    fields := [custIdField], nlRules := [], requiredAuthority := .READ_ONLY,
    allowedActions := [], prohibitedActions := [], requiredScopes := [],
    dataClassification := none }

/-- A warn-mode contract from `cs` to `research` requiring
`customer_id`. -/
def ctrWarn : Core.HandoffContract :=
  { name := "CTR-WARN", source := "cs", target := "research", mode := .warn,
    fields := [custIdField], nlRules := [], requiredAuthority := .READ_ONLY,
    allowedActions := [], prohibitedActions := [], requiredScopes := [],
    dataClassification := none }

/-- A contract with two required fields and an authority requirement the
target does not meet. -/
def strictContract : Core.HandoffContract :=
  { name := "CTR-STRICT", source := "cs", target := "research", mode := .block,
    fields := [custIdField, amountField], nlRules := [],
    requiredAuthority := .EXECUTE, allowedActions := [], prohibitedActions := [],
    requiredScopes := [], dataClassification := none }

/-- A registry holding `cs`, `research` and the blocking contract. -/
def sampleRegistry : Core.Registry :=
  { agents := [csAgent, researchAgent], contracts := [ctr1] }

/-- A registry holding `cs`, `research` and the warn-mode contract. -/
def warnRegistry : Core.Registry :=
  { agents := [csAgent, researchAgent], contracts := [ctrWarn] }

/-! ## Theorems -/

/-- C10: the sensitive-key predicate is the same function in the
live-stream, data-flow and handoff-detail components, and a key is
flagged exactly when its lowercased form contains at least one of the
twelve fixed substrings. -/
theorem sensitive_key_agreement (k : String) :
    (DataFlow.isSensitiveKey k = ValidationStream.isSensitiveKey k ∧
     DataFlow.isSensitiveKey k = HandoffDetail.isSensitiveKey k) ∧
    (DataFlow.isSensitiveKey k = true ↔
      (jsIncludes (jsToLower k) "ssn" = true ∨ jsIncludes (jsToLower k) "password" = true ∨
       jsIncludes (jsToLower k) "passwd" = true ∨ jsIncludes (jsToLower k) "secret" = true ∨
       jsIncludes (jsToLower k) "token" = true ∨ jsIncludes (jsToLower k) "api_key" = true ∨
       jsIncludes (jsToLower k) "apikey" = true ∨ jsIncludes (jsToLower k) "credit_card" = true ∨
       jsIncludes (jsToLower k) "card_number" = true ∨
       jsIncludes (jsToLower k) "account_number" = true ∨
       jsIncludes (jsToLower k) "tax_id" = true ∨
       jsIncludes (jsToLower k) "private_key" = true)) := by
  refine ⟨⟨rfl, rfl⟩, ?_⟩
  simp [DataFlow.isSensitiveKey, DataFlow.SENSITIVE_PATTERNS, List.any_cons, List.any_nil]

/-- C7: the JSON renderer treats a string value as masked exactly when
it equals the fixed mask token `***MASKED***`; every other string is
rendered as an ordinary `json-string` span. -/
theorem mask_token_exact (s : String) (indent : Nat) :
    (formatJson (.str s) indent = .span "json-masked" (jsQuote s) ↔ s = "***MASKED***") ∧
    (s ≠ "***MASKED***" → formatJson (.str s) indent = .span "json-string" (jsQuote s)) := by
  constructor
  · by_cases h : s = "***MASKED***" <;> simp [formatJson, h]
  · intro h; simp [formatJson, h]

/-- Witness for C7 at the concrete non-mask string `hello`. -/
theorem mask_token_exact_witness :
    formatJson (.str "hello") 0 = .span "json-string" (jsQuote "hello") :=
  (mask_token_exact "hello" 0).2 (by decide)

/-- Folding the `onmessage` buffer update over any message sequence from
a buffer within the bound yields the at-most-500 most recent elements of
the total stream. -/
theorem foldl_pushEvent_eq (msgs : List α) : ∀ buf : List α, buf.length ≤ 500 →
    msgs.foldl pushEvent buf = (buf ++ msgs).drop ((buf ++ msgs).length - 500) := by
  induction msgs with
  | nil =>
      intro buf h
      simp [Nat.sub_eq_zero_of_le h]
  | cons m ms ih =>
      intro buf h
      rw [List.foldl_cons]
      by_cases hlen : (buf ++ [m]).length > 500
      · have hb : buf.length = 500 := by
          have hx := hlen
          simp [List.length_append] at hx
          omega
        have hlen1 : (buf ++ [m]).length = 501 := by simp [hb]
        have hpush : pushEvent buf m = (buf ++ [m]).drop 1 := by
          show (if (buf ++ [m]).length > 500 then
                  (buf ++ [m]).drop ((buf ++ [m]).length - 500)
                else (buf ++ [m])) = (buf ++ [m]).drop 1
          rw [if_pos hlen, hlen1]
        have hlen2 : (pushEvent buf m).length ≤ 500 := by
          rw [hpush, List.length_drop, hlen1]
        rw [ih _ hlen2, hpush]
        have hlen3 : ((buf ++ [m]).drop 1).length = 500 := by
          rw [List.length_drop, hlen1]
        have hamt : ((buf ++ [m]).drop 1 ++ ms).length - 500 = ms.length := by
          rw [List.length_append, hlen3]
          omega
        have hassoc : buf ++ m :: ms = (buf ++ [m]) ++ ms := by simp
        have hamt2 : ((buf ++ [m]) ++ ms).length - 500 = 1 + ms.length := by
          rw [List.length_append, hlen1]
          omega
        have hsplit : ((buf ++ [m]) ++ ms).drop 1 = (buf ++ [m]).drop 1 ++ ms := by
          rw [List.drop_append_eq_append_drop]
          have h0 : 1 - (buf ++ [m]).length = 0 := by omega
          rw [h0, List.drop_zero]
        rw [hamt, hassoc, hamt2, ← List.drop_drop, hsplit]
      · have hpush : pushEvent buf m = buf ++ [m] := by
          show (if (buf ++ [m]).length > 500 then
                  (buf ++ [m]).drop ((buf ++ [m]).length - 500)
                else (buf ++ [m])) = buf ++ [m]
          rw [if_neg hlen]
        have hlen2 : (pushEvent buf m).length ≤ 500 := by
          rw [hpush]
          omega
        rw [ih _ hlen2, hpush]
        have hassoc : (buf ++ [m]) ++ ms = buf ++ m :: ms := by simp
        rw [hassoc]

/-- C6: the in-memory event buffer is bounded by 500 and, once the bound
is reached, holds exactly the 500 most recently received messages in
arrival order (the oldest were dropped). -/
theorem event_buffer_bounded (α : Type) (msgs : List α) :
    receiveAll msgs = msgs.drop (msgs.length - 500) ∧
    (receiveAll msgs).length ≤ 500 := by
  have h := foldl_pushEvent_eq msgs ([] : List α) (by simp)
  simp only [List.nil_append] at h
  have h2 : receiveAll msgs = msgs.drop (msgs.length - 500) := h
  refine ⟨h2, ?_⟩
  rw [h2, List.length_drop]
  omega

/-- CRITICAL/HIGH as a proposition. -/
theorem isCritOrHigh_iff (s : Core.Severity) :
    s.isCritOrHigh = true ↔ s = .CRITICAL ∨ s = .HIGH := by
  cases s <;> simp [Core.Severity.isCritOrHigh]

/-- The `any` test of `computeVerdict` as a proposition. -/
theorem any_critOrHigh_iff (vs : List Core.Violation) :
    vs.any (fun v => v.severity.isCritOrHigh) = true ↔
      ∃ v ∈ vs, v.severity = .CRITICAL ∨ v.severity = .HIGH := by
  simp [List.any_eq_true, isCritOrHigh_iff]

/-- The verdict is FAIL exactly when some CRITICAL or HIGH violation
exists. -/
theorem computeVerdict_FAIL_iff (vs : List Core.Violation) :
    Core.computeVerdict vs = .FAIL ↔
      ∃ v ∈ vs, v.severity = .CRITICAL ∨ v.severity = .HIGH := by
  rw [Core.computeVerdict]
  by_cases h : vs.any (fun v => v.severity.isCritOrHigh) = true
  · rw [if_pos h]
    exact iff_of_true rfl ((any_critOrHigh_iff vs).mp h)
  · rw [if_neg h]
    have hno : ¬ ∃ v ∈ vs, v.severity = .CRITICAL ∨ v.severity = .HIGH :=
      fun hx => h ((any_critOrHigh_iff vs).mpr hx)
    apply iff_of_false _ hno
    split
    · simp
    · simp

/-- The verdict is PASS exactly when the violation list is empty. -/
theorem computeVerdict_PASS_iff (vs : List Core.Violation) :
    Core.computeVerdict vs = .PASS ↔ vs = [] := by
  rw [Core.computeVerdict]
  by_cases h : vs.any (fun v => v.severity.isCritOrHigh) = true
  · rw [if_pos h]
    apply iff_of_false (by simp)
    intro hv
    subst hv
    simp at h
  · rw [if_neg h]
    by_cases he : vs.isEmpty
    · rw [if_pos he]
      exact iff_of_true rfl (List.isEmpty_iff.mp he)
    · rw [if_neg he]
      apply iff_of_false (by simp)
      intro hv
      subst hv
      simp at he

/-- The verdict is WARN exactly when the list is non-empty and contains
only MEDIUM/LOW violations. -/
theorem computeVerdict_WARN_iff (vs : List Core.Violation) :
    Core.computeVerdict vs = .WARN ↔
      vs ≠ [] ∧ ∀ v ∈ vs, v.severity = .MEDIUM ∨ v.severity = .LOW := by
  have hsev : ∀ s : Core.Severity,
      (s = .MEDIUM ∨ s = .LOW) ↔ ¬(s = .CRITICAL ∨ s = .HIGH) := by
    intro s
    cases s <;> simp
  rw [Core.computeVerdict]
  by_cases h : vs.any (fun v => v.severity.isCritOrHigh) = true
  · rw [if_pos h]
    obtain ⟨v, hv, hch⟩ := (any_critOrHigh_iff vs).mp h
    apply iff_of_false (by simp)
    rintro ⟨-, hall⟩
    exact absurd hch ((hsev v.severity).mp (hall v hv))
  · rw [if_neg h]
    have hno : ¬ ∃ v ∈ vs, v.severity = .CRITICAL ∨ v.severity = .HIGH :=
      fun hx => h ((any_critOrHigh_iff vs).mpr hx)
    have hall : ∀ v ∈ vs, v.severity = .MEDIUM ∨ v.severity = .LOW := by
      intro v hv
      exact (hsev v.severity).mpr (fun hch => hno ⟨v, hv, hch⟩)
    by_cases he : vs.isEmpty
    · rw [if_pos he]
      apply iff_of_false (by simp)
      rintro ⟨hne, -⟩
      exact hne (List.isEmpty_iff.mp he)
    · rw [if_neg he]
      have hne : vs ≠ [] := by simpa [List.isEmpty_iff] using he
      exact iff_of_true rfl ⟨hne, hall⟩

/-- C2: the fixed severity-to-verdict mapping — FAIL iff some CRITICAL
or HIGH violation, WARN iff non-empty with only MEDIUM/LOW violations,
PASS iff no violations.  `computeVerdict` takes no configuration. -/
theorem verdict_severity_mapping (vs : List Core.Violation) :
    (Core.computeVerdict vs = .FAIL ↔
      ∃ v ∈ vs, v.severity = .CRITICAL ∨ v.severity = .HIGH) ∧
    (Core.computeVerdict vs = .WARN ↔
      vs ≠ [] ∧ ∀ v ∈ vs, v.severity = .MEDIUM ∨ v.severity = .LOW) ∧
    (Core.computeVerdict vs = .PASS ↔ vs = []) :=
  ⟨computeVerdict_FAIL_iff vs, computeVerdict_WARN_iff vs, computeVerdict_PASS_iff vs⟩

/-- The DataFlow keep-predicate at the default filters with only
`Only violations` enabled. -/
theorem dataFlowKeep_onlyViolations (e : StreamEvent) :
    dataFlowKeep "All" "All" true "" e = true ↔
      e.passed = JSVal.bool false ∧ e.violations ≠ [] := by
  rw [dataFlowKeep]
  rw [if_neg (by simp : ¬(("All" : String) ≠ "All" ∧ e.source ≠ "All"))]
  rw [if_neg (by simp : ¬(("All" : String) ≠ "All" ∧ e.target ≠ "All"))]
  by_cases hp : e.passed ≠ JSVal.bool false ∨ e.violations.length = 0
  · rw [if_pos ⟨rfl, hp⟩]
    apply iff_of_false (by simp)
    rintro ⟨h1, h2⟩
    rcases hp with hp | hp
    · exact hp h1
    · exact h2 (List.length_eq_zero.mp hp)
  · rw [if_neg (fun hc => hp hc.2)]
    rw [if_neg (by decide : ¬(jsToLower "" ≠ ""))]
    push_neg at hp
    refine iff_of_true rfl ⟨hp.1, ?_⟩
    intro hnil
    exact hp.2 (by simp [hnil])

/-- C9: with `Only violations` enabled, DataFlow shows an event iff its
`passed` field is strictly the boolean `false` and its violations list is
non-empty — so a failed record whose `passed` is the number `0` is
excluded — while InteractionLog treats a record as passed iff `passed`
is the number `1` or the boolean `true`. -/
theorem passed_flag_encoding_mismatch :
    (∀ (events : List StreamEvent) (e : StreamEvent),
      e ∈ dataFlowFiltered "All" "All" true "" events ↔
        e ∈ events ∧ e.etype = "validation" ∧
          e.passed = JSVal.bool false ∧ e.violations ≠ []) ∧
    dataFlowFiltered "All" "All" true "" [numericZeroFailEvent] = [] ∧
    interactionLogRowPassed (JSVal.num 0) = false ∧
    (∀ p : JSVal, interactionLogRowPassed p = true ↔
      p = JSVal.num 1 ∨ p = JSVal.bool true) := by
  refine ⟨?_, by decide, rfl, ?_⟩
  · intro events e
    rw [dataFlowFiltered, List.mem_filter, List.mem_filter]
    constructor
    · rintro ⟨⟨he, het⟩, hkeep⟩
      obtain ⟨h1, h2⟩ := (dataFlowKeep_onlyViolations e).mp hkeep
      exact ⟨he, by simpa using het, h1, h2⟩
    · rintro ⟨he, het, hp, hv⟩
      exact ⟨⟨he, by simpa using het⟩, (dataFlowKeep_onlyViolations e).mpr ⟨hp, hv⟩⟩
  · intro p
    cases p with
    | bool b => cases b <;> simp [interactionLogRowPassed]
    | num n => simp [interactionLogRowPassed]

/-- C3: the engine never short-circuits — every result's violation list
is the concatenation of the Schema, Authority and Policy stage outputs,
and the concrete scenario of a payload missing two required fields under
a contract whose authority requirement the target fails yields both
stages' violations in the same single result. -/
theorem engine_runs_all_stages :
    (∀ (packs : List Core.PolicyPack) (src tgt : Core.AgentIdentity)
       (c : Core.HandoffContract) (payload metadata : Core.Payload),
      (Core.runValidation packs src tgt c payload metadata).violations =
        Core.schemaViolations c.fields payload ++
        Core.authorityViolations src tgt c payload metadata ++
        Core.dispatchPolicies packs c payload src tgt) ∧
    (Core.runValidation [] csAgent researchAgent strictContract [] []).violations =
      [⟨"missing_required_field", .CRITICAL, "required field missing", some "customer_id"⟩,
       ⟨"missing_required_field", .CRITICAL, "required field missing", some "amount"⟩,
       ⟨"insufficient_authority", .CRITICAL, "target authority below required level", none⟩] :=
  ⟨fun _ _ _ _ _ _ => rfl, by decide⟩

/-- C1: under a resolved contract, mode `block` with any CRITICAL or
HIGH violation in the engine's result never forwards the payload — the
call yields the distinct `HandoffBlockedError` outcome — while mode
`warn` forwards the payload with the violations still recorded in the
returned result. -/
theorem interceptor_fail_closed (reg : Core.Registry) (packs : List Core.PolicyPack)
    (src tgt : Core.AgentIdentity) (payload metadata : Core.Payload)
    (c : Core.HandoffContract)
    (hc : Core.get_contract reg src.name tgt.name = some c) :
    (c.mode = .block →
      (∃ v ∈ (Core.runValidation packs src tgt c payload metadata).violations,
         v.severity = .CRITICAL ∨ v.severity = .HIGH) →
      Core.interceptorValidate reg packs src tgt payload metadata =
        .HandoffBlockedError
          { Core.runValidation packs src tgt c payload metadata with blocked := true } ∧
      ∀ (p : Core.Payload) (r : Core.ValidationResult),
        Core.interceptorValidate reg packs src tgt payload metadata ≠ .forwarded p r) ∧
    (c.mode = .warn →
      Core.interceptorValidate reg packs src tgt payload metadata =
        .forwarded payload (Core.runValidation packs src tgt c payload metadata)) := by
  have hval : Core.interceptorValidate reg packs src tgt payload metadata =
      (if c.mode = .block ∧
          (Core.runValidation packs src tgt c payload metadata).verdict = .FAIL then
        .HandoffBlockedError
          { Core.runValidation packs src tgt c payload metadata with blocked := true }
      else .forwarded payload (Core.runValidation packs src tgt c payload metadata)) := by
    rw [Core.interceptorValidate, hc]
  constructor
  · intro hm hex
    have hfail : (Core.runValidation packs src tgt c payload metadata).verdict = .FAIL := by
      have hv : (Core.runValidation packs src tgt c payload metadata).verdict =
          Core.computeVerdict
            (Core.runValidation packs src tgt c payload metadata).violations := rfl
      rw [hv]
      exact (computeVerdict_FAIL_iff _).mpr hex
    rw [hval, if_pos ⟨hm, hfail⟩]
    exact ⟨rfl, fun p r hcon => Core.InterceptOutcome.noConfusion hcon⟩
  · intro hm
    rw [hval, if_neg (fun hcon => by rw [hm] at hcon; cases hcon.1)]

/-- Witness for C1: the block contract with a missing required field is
blocked, the warn contract with the same violation forwards the
payload. -/
theorem interceptor_fail_closed_witness :
    Core.interceptorValidate sampleRegistry [] csAgent researchAgent [] [] =
      .HandoffBlockedError
        { Core.runValidation [] csAgent researchAgent ctr1 [] [] with blocked := true } ∧
    Core.interceptorValidate warnRegistry [] csAgent researchAgent [] [] =
      .forwarded [] (Core.runValidation [] csAgent researchAgent ctrWarn [] []) :=
  ⟨((interceptor_fail_closed sampleRegistry [] csAgent researchAgent [] [] ctr1
      rfl).1 rfl (by decide)).1,
   (interceptor_fail_closed warnRegistry [] csAgent researchAgent [] [] ctrWarn
      rfl).2 rfl⟩

/-- C4: the coverage matrix entry of every ordered pair of registered
agents is exactly one of covered/uncovered/self: `self` iff the agents
coincide, and for distinct agents `covered` iff `get_contract` finds a
contract, `uncovered` iff it does not; every registered pair has an
entry in the matrix. -/
theorem coverage_matrix_trichotomy (reg : Core.Registry) (a b : String) :
    (Core.coverageStatus reg a b = .self ↔ a = b) ∧
    (a ≠ b → (Core.coverageStatus reg a b = .covered ↔
      (Core.get_contract reg a b).isSome = true)) ∧
    (a ≠ b → (Core.coverageStatus reg a b = .uncovered ↔
      Core.get_contract reg a b = none)) ∧
    (Core.coverageStatus reg a b = .covered ∨
     Core.coverageStatus reg a b = .uncovered ∨
     Core.coverageStatus reg a b = .self) ∧
    (∀ ia ∈ reg.agents, ∀ ib ∈ reg.agents,
      (ia.name, ib.name, Core.coverageStatus reg ia.name ib.name) ∈ Core.coverage reg) := by
  refine ⟨?_, ?_, ?_, ?_, ?_⟩
  · rw [Core.coverageStatus]
    by_cases hab : a = b
    · rw [if_pos hab]
      exact iff_of_true rfl hab
    · rw [if_neg hab]
      apply iff_of_false _ hab
      split
      · simp
      · simp
  · intro hab
    rw [Core.coverageStatus, if_neg hab]
    by_cases hs : (Core.get_contract reg a b).isSome = true
    · rw [if_pos hs]
      exact iff_of_true rfl hs
    · rw [if_neg hs]
      exact iff_of_false (by simp) hs
  · intro hab
    rw [Core.coverageStatus, if_neg hab]
    by_cases hs : (Core.get_contract reg a b).isSome = true
    · rw [if_pos hs]
      apply iff_of_false (by simp)
      intro hn
      rw [hn] at hs
      cases hs
    · rw [if_neg hs]
      exact iff_of_true rfl (Option.not_isSome_iff_eq_none.mp hs)
  · rw [Core.coverageStatus]
    split
    · exact Or.inr (Or.inr rfl)
    · split
      · exact Or.inl rfl
      · exact Or.inr (Or.inl rfl)
  · intro ia hia ib hib
    rw [Core.coverage, List.mem_flatMap]
    exact ⟨ia, hia, List.mem_map.mpr ⟨ib, hib, rfl⟩⟩

/-- The group display order is pairwise descending by first-event
timestamp. -/
theorem groupOrder_pairwise (evts : List StreamEvent) :
    List.Pairwise (fun a b => firstTs evts b ≤ firstTs evts a) (groupOrder evts) := by
  have h := @List.sorted_mergeSort String
    (fun a b => decide (firstTs evts b ≤ firstTs evts a))
    (fun a b c hab hbc => by
      simp only [decide_eq_true_eq] at hab hbc ⊢
      exact le_trans hbc hab)
    (fun a b => by
      simp only [Bool.or_eq_true, decide_eq_true_eq]
      exact le_total (firstTs evts b) (firstTs evts a))
    (groupKeys evts)
  exact h.imp (fun hab => by simpa using hab)

/-- C5: the displayed trace groups are ordered newest-first — the group
sequence is pairwise descending by the timestamp of each group's first
event, so a group whose first event is later never appears after one
whose first event is earlier. -/
theorem audit_groups_newest_first (sf tf : String) (ov : Bool) (q : String)
    (events : List StreamEvent) :
    List.Pairwise
      (fun a b => firstTs (dataFlowFiltered sf tf ov q events) b ≤
                  firstTs (dataFlowFiltered sf tf ov q events) a)
      (dataFlowGroupOrder sf tf ov q events) ∧
    (∀ i j : Nat, i < j → j < (dataFlowGroupOrder sf tf ov q events).length →
      firstTs (dataFlowFiltered sf tf ov q events)
          ((dataFlowGroupOrder sf tf ov q events).getD j "") ≤
        firstTs (dataFlowFiltered sf tf ov q events)
          ((dataFlowGroupOrder sf tf ov q events).getD i "")) := by
  have hp := groupOrder_pairwise (dataFlowFiltered sf tf ov q events)
  refine ⟨hp, ?_⟩
  intro i j hij hj
  have hi : i < (dataFlowGroupOrder sf tf ov q events).length := lt_trans hij hj
  rw [List.getD_eq_getElem _ _ hi, List.getD_eq_getElem _ _ hj]
  have hpg := (List.pairwise_iff_get.mp hp) ⟨i, hi⟩ ⟨j, hj⟩ (Fin.mk_lt_mk.mpr hij)
  simpa using hpg

/-- Witness for C5: in the two-trace sample stream the group at
position 1 has a first-event timestamp at most that of the group at
position 0. -/
theorem audit_groups_newest_first_witness :
    firstTs (dataFlowFiltered "All" "All" false "" sampleStream)
        ((dataFlowGroupOrder "All" "All" false "" sampleStream).getD 1 "") ≤
      firstTs (dataFlowFiltered "All" "All" false "" sampleStream)
        ((dataFlowGroupOrder "All" "All" false "" sampleStream).getD 0 "") :=
  (audit_groups_newest_first "All" "All" false "" sampleStream).2 0 1 (by decide)
    (by rw [dataFlowGroupOrder, groupOrder, List.length_mergeSort]; decide)

/-- Pointwise behaviour of one status write of `deriveAgentStatuses`. -/
theorem setStatus_apply (st : String → Option AgentStatus) (sev : AgentStatus)
    (n a : String) :
    setStatus st sev n a =
      if a = n ∧ (sev = .error ∨ st n ≠ some .error) then some sev else st a := by
  rw [setStatus]
  by_cases hc : sev = .error ∨ st n ≠ some .error
  · rw [if_pos hc, Function.update_apply]
    by_cases ha : a = n
    · rw [if_pos ha, if_pos ⟨ha, hc⟩]
    · rw [if_neg ha, if_neg (fun h => ha h.1)]
  · rw [if_neg hc, if_neg (fun h => hc h.2)]

/-- A warning write never produces or erases an error entry. -/
theorem setStatus_warning_error_iff (st : String → Option AgentStatus) (n a : String) :
    setStatus st .warning n a = some .error ↔ st a = some .error := by
  rw [setStatus_apply]
  by_cases h : a = n ∧ (AgentStatus.warning = .error ∨ st n ≠ some .error)
  · rw [if_pos h]
    apply iff_of_false (by simp)
    rw [h.1]
    exact h.2.resolve_left (by simp)
  · rw [if_neg h]

/-- An error write marks exactly the written name, preserving existing
errors. -/
theorem setStatus_error_write (st : String → Option AgentStatus) (n a : String) :
    setStatus st .error n a = some .error ↔ st a = some .error ∨ a = n := by
  rw [setStatus_apply]
  by_cases ha : a = n
  · rw [if_pos ⟨ha, Or.inl rfl⟩]
    exact iff_of_true rfl (Or.inr ha)
  · rw [if_neg (fun h => ha h.1)]
    constructor
    · exact Or.inl
    · rintro (h | h)
      · exact h
      · exact absurd h ha

/-- A write leaves an entry absent only at other names, and only if it
was absent before. -/
theorem setStatus_none_iff (st : String → Option AgentStatus) (sev : AgentStatus)
    (n a : String) :
    setStatus st sev n a = none ↔ st a = none ∧ a ≠ n := by
  rw [setStatus_apply]
  by_cases h : a = n ∧ (sev = .error ∨ st n ≠ some .error)
  · rw [if_pos h]
    exact iff_of_false (by simp) (fun hx => hx.2 h.1)
  · rw [if_neg h]
    constructor
    · intro hnone
      refine ⟨hnone, fun ha => ?_⟩
      apply h
      refine ⟨ha, ?_⟩
      right
      rw [← ha]
      rw [hnone]
      simp
    · exact fun hx => hx.1

/-- One event-loop step produces an error entry for `a` exactly when one
was already present or the event is a failed validation involving `a`
with critical/high severity. -/
theorem statusStep_error_iff (st : String → Option AgentStatus) (e : StreamEvent)
    (a : String) :
    statusStep st e a = some .error ↔ st a = some .error ∨ relevantError a e := by
  rw [statusStep]
  by_cases hv : e.etype = "validation" ∧ e.passed.truthy = false
  · rw [if_pos hv]
    cases hsev : eventSeverity e with
    | error =>
        rw [setStatus_error_write, setStatus_error_write]
        have hrel : relevantError a e ↔ (e.source = a ∨ e.target = a) := by
          simp [relevantError, relevantFail, hv.1, hv.2, hsev]
        rw [hrel]
        constructor
        · rintro ((h | h) | h)
          · exact Or.inl h
          · exact Or.inr (Or.inl h.symm)
          · exact Or.inr (Or.inr h.symm)
        · rintro (h | h | h)
          · exact Or.inl (Or.inl h)
          · exact Or.inl (Or.inr h.symm)
          · exact Or.inr h.symm
    | warning =>
        rw [setStatus_warning_error_iff, setStatus_warning_error_iff]
        have hrel : ¬ relevantError a e := fun h => by
          rw [h.2] at hsev
          cases hsev
        simp [hrel]
  · rw [if_neg hv]
    have hrel : ¬ relevantError a e := fun h => hv ⟨h.1.1, h.1.2.1⟩
    simp [hrel]

/-- One event-loop step leaves `a` unmarked exactly when it was unmarked
and the event is not a failed validation involving `a`. -/
theorem statusStep_none_iff (st : String → Option AgentStatus) (e : StreamEvent)
    (a : String) :
    statusStep st e a = none ↔ st a = none ∧ ¬ relevantFail a e := by
  rw [statusStep]
  by_cases hv : e.etype = "validation" ∧ e.passed.truthy = false
  · rw [if_pos hv, setStatus_none_iff, setStatus_none_iff]
    have hrel : relevantFail a e ↔ (e.source = a ∨ e.target = a) := by
      simp [relevantFail, hv.1, hv.2]
    rw [hrel]
    constructor
    · rintro ⟨⟨hnone, hs⟩, ht⟩
      refine ⟨hnone, ?_⟩
      rintro (h | h)
      · exact hs h.symm
      · exact ht h.symm
    · rintro ⟨hnone, hno⟩
      refine ⟨⟨hnone, fun h => hno (Or.inl h.symm)⟩, fun h => hno (Or.inr h.symm)⟩
  · rw [if_neg hv]
    have hrel : ¬ relevantFail a e := fun h => hv ⟨h.1, h.2.1⟩
    simp [hrel]

/-- Folding the status step: error entries are exactly prior errors plus
relevant critical/high failures in the folded list. -/
theorem foldl_statusStep_error (l : List StreamEvent) :
    ∀ (st : String → Option AgentStatus) (a : String),
      (l.foldl statusStep st) a = some .error ↔
        st a = some .error ∨ ∃ e ∈ l, relevantError a e := by
  induction l with
  | nil => intro st a; simp
  | cons e l ih =>
      intro st a
      rw [List.foldl_cons, ih, statusStep_error_iff,
          List.exists_mem_cons_iff]
      tauto

/-- Folding the status step: an agent stays unmarked exactly when it was
unmarked and no folded event is a relevant failure. -/
theorem foldl_statusStep_none (l : List StreamEvent) :
    ∀ (st : String → Option AgentStatus) (a : String),
      (l.foldl statusStep st) a = none ↔
        st a = none ∧ ∀ e ∈ l, ¬ relevantFail a e := by
  induction l with
  | nil => intro st a; simp
  | cons e l ih =>
      intro st a
      rw [List.foldl_cons, ih, statusStep_none_iff]
      constructor
      · rintro ⟨⟨hnone, hne⟩, hall⟩
        refine ⟨hnone, fun x hx => ?_⟩
        rcases List.mem_cons.mp hx with h | h
        · subst h; exact hne
        · exact hall x h
      · rintro ⟨hnone, hall⟩
        exact ⟨⟨hnone, hall e (List.mem_cons_self e l)⟩,
               fun x hx => hall x (List.mem_cons_of_mem e hx)⟩

/-- The slice-last window is idempotent. -/
theorem sliceLast_idem (n : Nat) (l : List α) :
    sliceLast n (sliceLast n l) = sliceLast n l := by
  show (sliceLast n l).drop ((sliceLast n l).length - n) = sliceLast n l
  have hlen : (sliceLast n l).length = l.length - (l.length - n) := by
    show (l.drop (l.length - n)).length = l.length - (l.length - n)
    rw [List.length_drop]
  rw [hlen]
  have h0 : l.length - (l.length - n) - n = 0 := by omega
  rw [h0, List.drop_zero]

/-- C8: agent health considers only the 100 most recent events; an agent
is `error` iff some considered failed validation involving it carries a
critical/high violation, `warning` iff it is involved in failed
validations but only of lower severity, and an error mark is never
downgraded by later lower-severity failures in the same scan. -/
theorem agent_health_windowed (events : List StreamEvent) (a : String) :
    (deriveAgentStatuses events a = some .error ↔
      ∃ e ∈ sliceLast 100 events, relevantError a e) ∧
    (deriveAgentStatuses events a = some .warning ↔
      (∃ e ∈ sliceLast 100 events, relevantFail a e) ∧
      ∀ e ∈ sliceLast 100 events, ¬ relevantError a e) ∧
    (deriveAgentStatuses events = deriveAgentStatuses (sliceLast 100 events)) ∧
    (∀ pre post : List StreamEvent,
      (pre.foldl statusStep (fun _ => none)) a = some .error →
      ((pre ++ post).foldl statusStep (fun _ => none)) a = some .error) := by
  have herr : deriveAgentStatuses events a = some .error ↔
      ∃ e ∈ sliceLast 100 events, relevantError a e := by
    rw [deriveAgentStatuses, foldl_statusStep_error]
    simp
  have hnone : deriveAgentStatuses events a = none ↔
      ∀ e ∈ sliceLast 100 events, ¬ relevantFail a e := by
    rw [deriveAgentStatuses, foldl_statusStep_none]
    simp
  refine ⟨herr, ?_, ?_, ?_⟩
  · rcases hres : deriveAgentStatuses events a with _ | s
    · apply iff_of_false (by simp)
      rintro ⟨⟨e, he, hf⟩, -⟩
      exact (hnone.mp hres) e he hf
    · cases s with
      | error =>
          apply iff_of_false (by simp)
          rintro ⟨-, hall⟩
          obtain ⟨e, he, hrel⟩ := herr.mp hres
          exact hall e he hrel
      | warning =>
          refine iff_of_true rfl ⟨?_, ?_⟩
          · by_contra hne
            push_neg at hne
            have h0 := hnone.mpr hne
            rw [hres] at h0
            cases h0
          · intro e he hrel
            have h0 := herr.mpr ⟨e, he, hrel⟩
            rw [hres] at h0
            cases h0
  · show (sliceLast 100 events).foldl statusStep (fun _ => none) =
        (sliceLast 100 (sliceLast 100 events)).foldl statusStep (fun _ => none)
    rw [sliceLast_idem]
  · intro pre post hpre
    rw [foldl_statusStep_error] at hpre ⊢
    rcases hpre with h | ⟨e, he, hrel⟩
    · simp at h
    · exact Or.inr ⟨e, List.mem_append_left post he, hrel⟩

/-- Witness for C8: one failed critical validation marks its source as
`error`, and the mark survives appending further events. -/
theorem agent_health_windowed_witness :
    (([evCrit] ++ []).foldl statusStep (fun _ => none)) "alice" = some .error :=
  (agent_health_windowed [evCrit] "alice").2.2.2 [evCrit] [] (by decide)

/-- Witness for C4 at the sample registry and the distinct pair
(`cs`, `research`), whose contract exists. -/
theorem coverage_matrix_trichotomy_witness :
    (Core.coverageStatus sampleRegistry "cs" "research" = .covered ↔
      (Core.get_contract sampleRegistry "cs" "research").isSome = true) ∧
    ("cs", "research", Core.coverageStatus sampleRegistry "cs" "research") ∈
      Core.coverage sampleRegistry :=
  ⟨(coverage_matrix_trichotomy sampleRegistry "cs" "research").2.1 (by decide),
   (coverage_matrix_trichotomy sampleRegistry "cs" "research").2.2.2.2
     csAgent (List.mem_cons_self csAgent [researchAgent])
     researchAgent (List.mem_cons_of_mem csAgent
       (List.mem_cons_self researchAgent []))⟩

end FailSafe
